import Mathlib

/-!
Shallow embedding of the WebRTC room client (src/client/src/App.jsx and
src/src/webrtc.js).

The client keeps three pieces of mutable state relevant to signaling:
`pcsRef.current` (peer identifier → RTCPeerConnection), `remoteStreams`
(peer identifier → MediaStream) and `localStreamRef.current`.  We model
JS objects used as maps by association lists with single-occurrence keys,
an RTCPeerConnection by a record carrying an allocation identity (JS
object identity) plus the descriptions and candidates applied to it, and
each handler (`makeOffer`, `handleOffer`, `handleAnswer`, `handleIce`,
`cleanupPeer`) as a pure function from client state to client state plus
a trace of capability calls and emitted socket messages.
-/

set_option autoImplicit false

namespace WebRTCRoom

/-- Peer identifiers are socket ids (opaque strings). -/
abbrev PeerId := String

/-- ICE candidates are opaque payloads relayed verbatim. -/
abbrev Candidate := String

/-- Media streams are opaque handles. -/
abbrev MediaStream := Nat

/-- Session descriptions: `offerOf n` / `answerOf n` is the description the
peer connection with allocation identity `n` produced via `createOffer` /
`createAnswer`. -/
inductive Sdp where
  | offerOf (pcId : Nat)
  | answerOf (pcId : Nat)
  deriving DecidableEq

/-- Model of one `RTCPeerConnection` as configured by
`createPeerConnection` in src/src/webrtc.js: the local tracks are added
from `localStream`; descriptions and candidates record the capability
calls applied to this connection so far.  `pcId` models JS object
identity (fresh per construction). -/
structure PC where
  pcId : Nat
  peerId : PeerId
  localStream : MediaStream
  localDesc : Option Sdp
  remoteDesc : Option Sdp
  candidates : List Candidate
  closed : Bool
  deriving DecidableEq

/-- `createPeerConnection({peerId, localStream, ...})` (src/src/webrtc.js
lines 5-20): a fresh connection with the local tracks attached and no
descriptions applied yet.  The `ontrack` / `onicecandidate` wiring is
modelled separately (`onIceEventForward`, `onIceCandidateMsg`). -/
def createPeerConnection (pcId : Nat) (peerId : PeerId) (localStream : MediaStream) : PC :=
  { pcId := pcId, peerId := peerId, localStream := localStream,
    localDesc := none, remoteDesc := none, candidates := [], closed := false }

/-- Outgoing socket messages with their wire payload shapes:
`webrtc-offer`/`webrtc-answer` carry `{to, from, sdp}` and `webrtc-ice`
carries `{to, from, candidate}`; the field `dst` is the wire field `to`
and `src` is the wire field `from`. -/
inductive Msg where
  | offer (dst src : PeerId) (sdp : Sdp)
  | answer (dst src : PeerId) (sdp : Sdp)
  | ice (dst src : PeerId) (candidate : Candidate)
  deriving DecidableEq

/-- Observable effects of a handler: calls into the media-negotiation
capability on a given connection, and socket emissions. -/
inductive Action where
  | createPC (pcId : Nat) (peerId : PeerId)
  | createOffer (pcId : Nat)
  | createAnswer (pcId : Nat)
  | setLocalDesc (pcId : Nat) (sdp : Sdp)
  | setRemoteDesc (pcId : Nat) (sdp : Sdp)
  | addIce (pcId : Nat) (c : Candidate)
  | closePC (pcId : Nat)
  | emit (m : Msg)
  deriving DecidableEq

/-- Lookup in a JS-object-as-map (`obj[k]`, `undefined` ↦ `none`). -/
def tblGet {α : Type} (t : List (PeerId × α)) (k : PeerId) : Option α :=
  match t with
  | [] => none
  | (k', v) :: rest => if k' = k then some v else tblGet rest k

/-- Assignment `obj[k] = v`: overwrites the entry for `k` if present,
appends it otherwise. -/
def tblSet {α : Type} (t : List (PeerId × α)) (k : PeerId) (v : α) : List (PeerId × α) :=
  match t with
  | [] => [(k, v)]
  | (k', v') :: rest => if k' = k then (k, v) :: rest else (k', v') :: tblSet rest k v

/-- Deletion `delete obj[k]`: removes every entry for `k` (at most one in
a well-formed map). -/
def tblDel {α : Type} (t : List (PeerId × α)) (k : PeerId) : List (PeerId × α) :=
  match t with
  | [] => []
  | (k', v') :: rest => if k' = k then tblDel rest k else (k', v') :: tblDel rest k

/-- The client state that the signaling handlers read and write:
`selfId` is `socket.id`, `pcs` is `pcsRef.current`, `remoteStreams` the
React state of the same name, `localStream` is `localStreamRef.current`,
and `nextPcId` is the allocation counter supplying fresh connection
identities. -/
structure ClientState where
  selfId : PeerId
  pcs : List (PeerId × PC)
  remoteStreams : List (PeerId × MediaStream)
  localStream : Option MediaStream
  nextPcId : Nat
  deriving DecidableEq

/-- A client that has just connected: empty session table, no remote
streams, no local media yet. -/
def initClient (selfId : PeerId) : ClientState :=
  { selfId := selfId, pcs := [], remoteStreams := [], localStream := none, nextPcId := 0 }

/-- The handle `getUserMedia` returns on first acquisition. -/
def acquiredStream : MediaStream := 0

/-- `initLocalMedia()` (App.jsx lines 20-26): returns the cached stream
if present, otherwise acquires one and caches it. -/
def initLocalMedia (st : ClientState) : ClientState × MediaStream :=
  match st.localStream with
  | some s => (st, s)
  | none => ({ st with localStream := some acquiredStream }, acquiredStream)

/-- `setRemote(peerId, stream)` (App.jsx lines 39-41): store the remote
stream under the peer's identifier. -/
def setRemote (st : ClientState) (peerId : PeerId) (s : MediaStream) : ClientState :=
  { st with remoteStreams := tblSet st.remoteStreams peerId s }

/-- The `onIceCandidate` callback wired in `makeOffer` (App.jsx lines
49-51) and `handleOffer` (lines 67-69): emit `webrtc-ice` with payload
`{to: peerId, from: socket.id, candidate}`. -/
def onIceCandidateMsg (selfId peerId : PeerId) (c : Candidate) : Msg :=
  Msg.ice peerId selfId c

/-- The `onicecandidate` wiring in `createPeerConnection`
(src/src/webrtc.js lines 15-17): forward the callback exactly when the
event carries a candidate (`if (event.candidate) ...`); the
end-of-candidates event (`candidate` null) is dropped. -/
def onIceEventForward (peerId : PeerId) (eventCandidate : Option Candidate) :
    List (PeerId × Candidate) :=
  match eventCandidate with
  | some c => [(peerId, c)]
  | none => []

/-- Callbacks produced by a whole sequence of ICE events on one
connection. -/
def forwardedCandidates (peerId : PeerId) (events : List (Option Candidate)) :
    List (PeerId × Candidate) :=
  events.flatMap (onIceEventForward peerId)

/-- `makeOffer(toPeerId)` (App.jsx lines 43-59): acquire local media,
construct a fresh peer connection, store it under `toPeerId` (plain
assignment, overwriting any previous entry), create the offer, set it as
local description, and emit `webrtc-offer {to, from: socket.id, sdp}`. -/
def makeOffer (st : ClientState) (toPeerId : PeerId) : ClientState × List Action :=
  let st1 := (initLocalMedia st).1
  let ls := (initLocalMedia st).2
  let n := st1.nextPcId
  let pc0 := createPeerConnection n toPeerId ls
  let offer := Sdp.offerOf n
  let pc1 := { pc0 with localDesc := some offer }
  ({ st1 with pcs := tblSet st1.pcs toPeerId pc1, nextPcId := n + 1 },
   [Action.createPC n toPeerId, Action.createOffer n, Action.setLocalDesc n offer,
    Action.emit (Msg.offer toPeerId st1.selfId offer)])

/-- `handleOffer(from, sdp)` (App.jsx lines 61-78): acquire local media,
construct a fresh peer connection, store it under `from` (plain
assignment, overwriting any previous entry), set the remote description
from the offer, create the answer, set it as local description, and emit
`webrtc-answer {to: from, from: socket.id, sdp: answer}`. -/
def handleOffer (st : ClientState) (frm : PeerId) (sdp : Sdp) : ClientState × List Action :=
  let st1 := (initLocalMedia st).1
  let ls := (initLocalMedia st).2
  let n := st1.nextPcId
  let pc0 := createPeerConnection n frm ls
  let answer := Sdp.answerOf n
  let pc1 := { pc0 with remoteDesc := some sdp, localDesc := some answer }
  ({ st1 with pcs := tblSet st1.pcs frm pc1, nextPcId := n + 1 },
   [Action.createPC n frm, Action.setRemoteDesc n sdp, Action.createAnswer n,
    Action.setLocalDesc n answer, Action.emit (Msg.answer frm st1.selfId answer)])

/-- `handleAnswer(from, sdp)` (App.jsx lines 80-84): if no connection is
stored for `from`, return immediately; otherwise set the remote
description from the answer. -/
def handleAnswer (st : ClientState) (frm : PeerId) (sdp : Sdp) : ClientState × List Action :=
  match tblGet st.pcs frm with
  | none => (st, [])
  | some pc =>
    ({ st with pcs := tblSet st.pcs frm { pc with remoteDesc := some sdp } },
     [Action.setRemoteDesc pc.pcId sdp])

/-- `handleIce(from, candidate)` (App.jsx lines 86-94): if no connection
is stored for `from`, return immediately; otherwise try
`addIceCandidate`, and if the capability rejects it (modelled by the
oracle `ok`), swallow the failure (`catch ... ignore`).  The function is
total: no failure propagates. -/
def handleIce (ok : Nat → Candidate → Bool) (st : ClientState) (frm : PeerId)
    (c : Candidate) : ClientState × List Action :=
  match tblGet st.pcs frm with
  | none => (st, [])
  | some pc =>
    if ok pc.pcId c then
      ({ st with pcs := tblSet st.pcs frm { pc with candidates := pc.candidates ++ [c] } },
       [Action.addIce pc.pcId c])
    else
      (st, [])

/-- `cleanupPeer(peerId)` (App.jsx lines 28-37): close the stored
connection if one exists, delete the session-table entry, and delete the
remote-stream entry (the React updater copies the map and deletes the
key unconditionally). -/
def cleanupPeer (st : ClientState) (peerId : PeerId) : ClientState × List Action :=
  let tr := match tblGet st.pcs peerId with
    | some pc => [Action.closePC pc.pcId]
    | none => []
  ({ st with pcs := tblDel st.pcs peerId, remoteStreams := tblDel st.remoteStreams peerId },
   tr)

/-- The `peer-left` socket handler (App.jsx line 102): tear down the
departed peer's edge. -/
def onPeerLeft (st : ClientState) (peerId : PeerId) : ClientState × List Action :=
  cleanupPeer st peerId

/-- The `peer-joined` socket handler (App.jsx lines 97-100): an existing
member offers toward the new peer. -/
def onPeerJoined (st : ClientState) (peerId : PeerId) : ClientState × List Action :=
  makeOffer st peerId

/-- The `join-room` ack callback's offer loop (App.jsx lines 135-138):
the new joiner offers toward each existing peer returned in the ack. -/
def joinRoomOffers (st : ClientState) (peers : List PeerId) : ClientState × List Action :=
  peers.foldl (fun acc p =>
    let r := makeOffer acc.1 p
    (r.1, acc.2 ++ r.2)) (st, [])

/-- Socket emissions contained in a trace. -/
def emits (tr : List Action) : List Msg :=
  tr.filterMap (fun a => match a with | Action.emit m => some m | _ => none)

/-! ## Basic lemmas about the map operations and `initLocalMedia` -/

@[simp]
theorem tblGet_set_self {α : Type} (t : List (PeerId × α)) (k : PeerId) (v : α) :
    tblGet (tblSet t k v) k = some v := by
  induction t with
  | nil => simp [tblSet, tblGet]
  | cons hd tl ih =>
    obtain ⟨k', v'⟩ := hd
    by_cases h : k' = k <;> simp [tblSet, tblGet, h, ih]

theorem tblGet_set_ne {α : Type} (t : List (PeerId × α)) (k q : PeerId) (v : α)
    (h : q ≠ k) : tblGet (tblSet t k v) q = tblGet t q := by
  induction t with
  | nil => simp [tblSet, tblGet, Ne.symm h]
  | cons hd tl ih =>
    obtain ⟨k', v'⟩ := hd
    simp only [tblSet]
    by_cases hk : k' = k
    · subst hk
      simp [tblGet, Ne.symm h]
    · simp [tblGet, hk, ih]

@[simp]
theorem tblGet_del_self {α : Type} (t : List (PeerId × α)) (k : PeerId) :
    tblGet (tblDel t k) k = none := by
  induction t with
  | nil => simp [tblDel, tblGet]
  | cons hd tl ih =>
    obtain ⟨k', v'⟩ := hd
    by_cases h : k' = k <;> simp [tblDel, tblGet, h, ih]

theorem tblGet_del_ne {α : Type} (t : List (PeerId × α)) (k q : PeerId)
    (h : q ≠ k) : tblGet (tblDel t k) q = tblGet t q := by
  induction t with
  | nil => simp [tblDel]
  | cons hd tl ih =>
    obtain ⟨k', v'⟩ := hd
    simp only [tblDel]
    by_cases hk : k' = k
    · subst hk
      simp [tblGet, Ne.symm h, ih]
    · simp [tblGet, hk, ih]

theorem tblDel_absent {α : Type} (t : List (PeerId × α)) (k : PeerId)
    (h : tblGet t k = none) : tblDel t k = t := by
  induction t with
  | nil => simp [tblDel]
  | cons hd tl ih =>
    obtain ⟨k', v'⟩ := hd
    by_cases hk : k' = k
    · simp [tblGet, hk] at h
    · simp [tblGet, hk] at h
      simp [tblDel, hk, ih h]

@[simp]
theorem initLocalMedia_selfId (st : ClientState) :
    (initLocalMedia st).1.selfId = st.selfId := by
  cases h : st.localStream <;> simp [initLocalMedia, h]

@[simp]
theorem initLocalMedia_pcs (st : ClientState) :
    (initLocalMedia st).1.pcs = st.pcs := by
  cases h : st.localStream <;> simp [initLocalMedia, h]

@[simp]
theorem initLocalMedia_remoteStreams (st : ClientState) :
    (initLocalMedia st).1.remoteStreams = st.remoteStreams := by
  cases h : st.localStream <;> simp [initLocalMedia, h]

@[simp]
theorem initLocalMedia_nextPcId (st : ClientState) :
    (initLocalMedia st).1.nextPcId = st.nextPcId := by
  cases h : st.localStream <;> simp [initLocalMedia, h]

/-! ## Claims -/

/-- C1: the code violates the single-offerer contract.  When `"B"` joins
a room where `"A"` is already present, `"A"`'s `peer-joined` handler
emits a `webrtc-offer` toward `"B"`, and `"B"`'s own `join-room` ack
loop also emits a `webrtc-offer` toward `"A"`: both offer directions
occur on the same peer pair, where the claim requires at most one. -/
theorem C1_both_directions_offer :
    Action.emit (Msg.offer "B" "A" (Sdp.offerOf 0)) ∈
      (onPeerJoined (initClient "A") "B").2 ∧
    Action.emit (Msg.offer "A" "B" (Sdp.offerOf 0)) ∈
      (joinRoomOffers (initClient "B") ["A"]).2 := by
  decide

/-- C2 counterexample: referencing a session for the same peer a second
time does not return the already-existing session.  After two
`makeOffer` calls toward `"p"`, the table entry for `"p"` holds a
different, freshly constructed connection (allocation identity 1, not
0). -/
theorem C2_counterexample :
    (tblGet ((makeOffer (initClient "A") "p").1).pcs "p").map PC.pcId = some 0 ∧
    (tblGet ((makeOffer ((makeOffer (initClient "A") "p").1) "p").1).pcs "p").map PC.pcId
      = some 1 ∧
    tblGet ((makeOffer ((makeOffer (initClient "A") "p").1) "p").1).pcs "p" ≠
      tblGet ((makeOffer (initClient "A") "p").1).pcs "p" := by
  decide

/-- C2 (amended): session creation is not idempotent — every reference
on the offer or answer path constructs a fresh `PeerSession` (with the
next allocation identity) and overwrites the table entry for that peer,
advancing the allocation counter. -/
theorem C2_fresh_session_overwrites (st : ClientState) (p : PeerId) (sdp : Sdp) :
    (tblGet (makeOffer st p).1.pcs p).map PC.pcId = some st.nextPcId ∧
    (makeOffer st p).1.nextPcId = st.nextPcId + 1 ∧
    (tblGet (handleOffer st p sdp).1.pcs p).map PC.pcId = some st.nextPcId ∧
    (handleOffer st p sdp).1.nextPcId = st.nextPcId + 1 := by
  refine ⟨?_, ?_, ?_, ?_⟩ <;> simp [makeOffer, handleOffer, createPeerConnection]

/-- C3: receiving `peer-left{p}` when a session for `p` exists tears the
edge down — the stored connection is closed, the session-table entry for
`p` is removed, and the stored remote stream for `p` is discarded. -/
theorem C3_peer_left_teardown (st : ClientState) (p : PeerId) (pc : PC)
    (h : tblGet st.pcs p = some pc) :
    (onPeerLeft st p).2 = [Action.closePC pc.pcId] ∧
    tblGet (onPeerLeft st p).1.pcs p = none ∧
    tblGet (onPeerLeft st p).1.remoteStreams p = none := by
  refine ⟨?_, ?_, ?_⟩ <;> simp [onPeerLeft, cleanupPeer, h]

/-- C3 witness: concrete run — after offering to `"B"`, a `peer-left`
for `"B"` closes connection 0 and clears both maps. -/
theorem C3_witness :
    (onPeerLeft (makeOffer (initClient "A") "B").1 "B").2 = [Action.closePC 0] ∧
    tblGet (onPeerLeft (makeOffer (initClient "A") "B").1 "B").1.pcs "B" = none ∧
    tblGet (onPeerLeft (makeOffer (initClient "A") "B").1 "B").1.remoteStreams "B" = none :=
  C3_peer_left_teardown (makeOffer (initClient "A") "B").1 "B"
    ⟨0, "B", 0, some (Sdp.offerOf 0), none, [], false⟩ (by decide)

/-- C4: the answerer path on `webrtc-offer` from `f` runs, in order:
construct the connection, set the remote description to the received
`sdp`, create the answer, set it as local description, and emit
`webrtc-answer` addressed to `f` with `from` the local identifier. -/
theorem C4_answerer_sequence (st : ClientState) (f : PeerId) (sdp : Sdp) :
    (handleOffer st f sdp).2 =
      [Action.createPC st.nextPcId f,
       Action.setRemoteDesc st.nextPcId sdp,
       Action.createAnswer st.nextPcId,
       Action.setLocalDesc st.nextPcId (Sdp.answerOf st.nextPcId),
       Action.emit (Msg.answer f st.selfId (Sdp.answerOf st.nextPcId))] := by
  simp [handleOffer]

/-- C5: when the capability rejects an incoming candidate (`ok` returns
`false`), `handleIce` swallows the failure: it returns normally, issues
no capability call, and leaves the whole client state unchanged. -/
theorem C5_ice_failure_swallowed (ok : Nat → Candidate → Bool) (st : ClientState)
    (f : PeerId) (c : Candidate) (pc : PC)
    (hpc : tblGet st.pcs f = some pc) (hfail : ok pc.pcId c = false) :
    handleIce ok st f c = (st, []) := by
  simp [handleIce, hpc, hfail]

/-- C5 witness: concrete run with an always-failing capability. -/
theorem C5_witness :
    handleIce (fun _ _ => false) (makeOffer (initClient "A") "B").1 "B" "cand" =
      ((makeOffer (initClient "A") "B").1, []) :=
  C5_ice_failure_swallowed (fun _ _ => false) (makeOffer (initClient "A") "B").1
    "B" "cand" ⟨0, "B", 0, some (Sdp.offerOf 0), none, [], false⟩ (by decide) rfl

/-- C6 counterexample: teardown of a peer with no session entry is not a
complete no-op — `cleanupPeer` deletes the remote-stream entry
unconditionally, so in a state holding a remote stream for `"q"` but no
session for `"q"`, the remote-media map changes. -/
theorem C6_counterexample :
    tblGet (ClientState.pcs
      { selfId := "A", pcs := [], remoteStreams := [("q", 0)],
        localStream := none, nextPcId := 0 }) "q" = none ∧
    (cleanupPeer
      { selfId := "A", pcs := [], remoteStreams := [("q", 0)],
        localStream := none, nextPcId := 0 } "q").1.remoteStreams ≠ [("q", 0)] := by
  decide

/-- C6 (amended): teardown of a peer `p` with no session entry closes
nothing, throws nothing, and leaves the session table unchanged; the
remote-media map still has its entry for `p` (if any) deleted, so the
call is a full no-op exactly when the remote-media map also has no entry
for `p`. -/
theorem C6_teardown_no_session (st : ClientState) (p : PeerId)
    (h : tblGet st.pcs p = none) :
    (cleanupPeer st p).2 = [] ∧
    (cleanupPeer st p).1.pcs = st.pcs ∧
    (cleanupPeer st p).1.remoteStreams = tblDel st.remoteStreams p ∧
    (tblGet st.remoteStreams p = none → cleanupPeer st p = (st, [])) := by
  refine ⟨?_, ?_, ?_, ?_⟩
  · simp [cleanupPeer, h]
  · simp [cleanupPeer, tblDel_absent _ _ h]
  · simp [cleanupPeer]
  · intro hs
    simp [cleanupPeer, h, tblDel_absent _ _ h, tblDel_absent _ _ hs]

/-- C6 witness: concrete run on a fresh client with empty maps. -/
theorem C6_witness :
    (cleanupPeer (initClient "A") "p").2 = [] ∧
    (cleanupPeer (initClient "A") "p").1.pcs = (initClient "A").pcs ∧
    (cleanupPeer (initClient "A") "p").1.remoteStreams =
      tblDel (initClient "A").remoteStreams "p" ∧
    (tblGet (initClient "A").remoteStreams "p" = none →
      cleanupPeer (initClient "A") "p" = (initClient "A", [])) :=
  C6_teardown_no_session (initClient "A") "p" rfl

/-- C7: teardown of peer `p` is frame-preserving — for every other peer
`q`, the session-table and remote-stream entries of `q` are unchanged,
and every action in the teardown trace is a close of `p`'s own stored
connection (no other edge is closed). -/
theorem C7_teardown_frame (st : ClientState) (p q : PeerId) (hq : q ≠ p) :
    tblGet (cleanupPeer st p).1.pcs q = tblGet st.pcs q ∧
    tblGet (cleanupPeer st p).1.remoteStreams q = tblGet st.remoteStreams q ∧
    ∀ a ∈ (cleanupPeer st p).2,
      ∃ pc, tblGet st.pcs p = some pc ∧ a = Action.closePC pc.pcId := by
  refine ⟨?_, ?_, ?_⟩
  · simp [cleanupPeer, tblGet_del_ne _ _ _ hq]
  · simp [cleanupPeer, tblGet_del_ne _ _ _ hq]
  · intro a ha
    simp only [cleanupPeer] at ha
    cases hpc : tblGet st.pcs p with
    | none => simp [hpc] at ha
    | some pc =>
      simp [hpc] at ha
      exact ⟨pc, rfl, ha⟩

/-- C7 witness: concrete run — tearing down `"B"` leaves `"C"`'s
entries untouched and closes only `"B"`'s connection. -/
theorem C7_witness :
    tblGet (cleanupPeer (makeOffer (initClient "A") "B").1 "B").1.pcs "C" =
      tblGet (makeOffer (initClient "A") "B").1.pcs "C" ∧
    tblGet (cleanupPeer (makeOffer (initClient "A") "B").1 "B").1.remoteStreams "C" =
      tblGet (makeOffer (initClient "A") "B").1.remoteStreams "C" ∧
    ∀ a ∈ (cleanupPeer (makeOffer (initClient "A") "B").1 "B").2,
      ∃ pc, tblGet (makeOffer (initClient "A") "B").1.pcs "B" = some pc ∧
        a = Action.closePC pc.pcId :=
  C7_teardown_frame (makeOffer (initClient "A") "B").1 "B" "C" (by decide)

/-- C8: the emitted wire messages keep their payload shapes — the offer
emitted by `makeOffer` is `webrtc-offer {to: p, from: selfId, sdp}`, the
answer emitted by `handleOffer` is `webrtc-answer {to: p, from: selfId,
sdp}`, and the wired ICE callback emits `webrtc-ice {to: p, from:
selfId, candidate}`; `from` is always the local identifier and `to` the
target peer. -/
theorem C8_wire_payloads (st : ClientState) (p : PeerId) (sdp : Sdp) (c : Candidate) :
    emits (makeOffer st p).2 = [Msg.offer p st.selfId (Sdp.offerOf st.nextPcId)] ∧
    emits (handleOffer st p sdp).2 = [Msg.answer p st.selfId (Sdp.answerOf st.nextPcId)] ∧
    onIceCandidateMsg st.selfId p c = Msg.ice p st.selfId c := by
  refine ⟨?_, ?_, rfl⟩ <;> simp [emits, makeOffer, handleOffer]

/-- C9: the `onicecandidate` wiring forwards exactly the events carrying
a non-null candidate: over any sequence of ICE events, the forwarded
callbacks are the non-null candidates in order, each paired with the
connection's peer; null (end-of-candidates) events are dropped. -/
theorem C9_ice_event_filter (peerId : PeerId) (events : List (Option Candidate)) :
    forwardedCandidates peerId events =
      (events.filterMap id).map (fun c => (peerId, c)) := by
  induction events with
  | nil => rfl
  | cons e rest ih =>
    cases e <;> simp [forwardedCandidates, onIceEventForward, ih] <;>
      simpa [forwardedCandidates] using ih

/-- C10: `webrtc-answer` or `webrtc-ice` from a peer with no stored
session is a no-op — no session is created, no capability call is made,
and the client state is returned unchanged. -/
theorem C10_unknown_peer_noop (ok : Nat → Candidate → Bool) (st : ClientState)
    (f : PeerId) (sdp : Sdp) (c : Candidate) (h : tblGet st.pcs f = none) :
    handleAnswer st f sdp = (st, []) ∧ handleIce ok st f c = (st, []) := by
  constructor <;> simp [handleAnswer, handleIce, h]

/-- C10 witness: concrete run on a fresh client with an empty session
table. -/
theorem C10_witness :
    handleAnswer (initClient "A") "p" (Sdp.offerOf 0) = (initClient "A", []) ∧
    handleIce (fun _ _ => true) (initClient "A") "p" "cand" = (initClient "A", []) :=
  C10_unknown_peer_noop (fun _ _ => true) (initClient "A") "p" (Sdp.offerOf 0) "cand" rfl

end WebRTCRoom
